import Mathlib

/-!
Shallow embedding of the IBC-Portal-ADO transfer contract
(`src/amount.rs`, `src/contract.rs`) and proofs about its behaviour.

Machine integers (`Uint128`) are modelled as `Nat`; where the source
performs checked 128-bit arithmetic the bound `2^128 - 1` appears
explicitly.  Strings are Lean `String`s; Rust's byte-indexed
`str::get(5..)` is modelled faithfully by `rustStrGet` below, which
fails exactly when the index is out of range or not on a character
boundary.

Parts of the repository referenced by `contract.rs` but whose source
files are not present (`state.rs`, `ibc.rs`, `msg.rs`, `error.rs`) are
modelled from the specification; each such definition carries a doc
comment starting `Modelled from the spec:`.
-/

namespace Portal

/-- Rust `cosmwasm_std::Coin`: a native denomination string and a `Uint128`
quantity (modelled as `Nat`). -/
structure Coin where
  denom : String
  amount : Nat
deriving DecidableEq, Repr

/-- Rust `cw20::Cw20Coin`: a token-ledger contract address and a `Uint128`
quantity. -/
structure Cw20Coin where
  address : String
  amount : Nat
deriving DecidableEq, Repr

/-- Type `Amount` from `src/amount.rs`: tagged union over a native coin and a
cw20 token coin. -/
inductive Amount where
  | Native : Coin → Amount
  | Cw20 : Cw20Coin → Amount
deriving DecidableEq, Repr

/-- Rust `str::starts_with` for an ASCII pattern, at character level
(for an ASCII pattern, byte-level and character-level agreement
coincide). -/
def charsStartWith : List Char → List Char → Bool
  | [], _ => true
  | _ :: _, [] => false
  | p :: ps, c :: cs => p == c && charsStartWith ps cs

/-- Rust `denom.starts_with(pat)` from the source. -/
def strStartsWith (s pat : String) : Bool :=
  charsStartWith pat.data s.data

/-- Rust `str::get(i..)`: returns the suffix starting at byte index `i`,
or `none` when `i` is past the end of the string or does not fall on a
character boundary. -/
def rustStrGet : List Char → Nat → Option (List Char)
  | cs, 0 => some cs
  | [], _ + 1 => none
  | c :: cs, n + 1 =>
      if c.utf8Size ≤ n + 1 then rustStrGet cs (n + 1 - c.utf8Size) else none

namespace Amount

/-- Function `Amount::from_parts` from `src/amount.rs`: a denomination string
prefixed with `"cw20:"` decodes to a `Cw20` amount whose address is the
rest of the string; anything else decodes to a `Native` amount. -/
def from_parts (denom : String) (amount : Nat) : Amount :=
  if strStartsWith denom "cw20:" then
    Amount.Cw20 ⟨⟨denom.data.drop 5⟩, amount⟩
  else
    Amount.Native ⟨denom, amount⟩

/-- Function `Amount::from_parts` with Rust's fallible byte slicing made
explicit: the source computes `denom.get(5..).unwrap()`, and this
version returns `none` exactly when that `unwrap` would panic. -/
def from_parts_checked (denom : String) (amount : Nat) : Option Amount :=
  if strStartsWith denom "cw20:" then
    (rustStrGet denom.data 5).map fun addr => Amount.Cw20 ⟨⟨addr⟩, amount⟩
  else
    some (Amount.Native ⟨denom, amount⟩)

/-- Function `Amount::amount` from `src/amount.rs`. -/
def amount : Amount → Nat
  | .Native c => c.amount
  | .Cw20 c => c.amount

/-- Function `Amount::denom` from `src/amount.rs`: `Native` uses its raw
denomination; `Cw20` uses `"cw20:" ++ address`. -/
def denom : Amount → String
  | .Native c => c.denom
  | .Cw20 c => "cw20:" ++ c.address

/-- Function `Amount::is_empty` from `src/amount.rs`: the quantity is zero. -/
def is_empty : Amount → Bool
  | .Native c => c.amount == 0
  | .Cw20 c => c.amount == 0

end Amount

/-- Modelled from the spec: `Config` from `state.rs` (not in `src/`) —
"single record: `default_timeout` (duration, seconds)". -/
structure Config where
  default_timeout : Nat
deriving DecidableEq, Repr

/-- Modelled from the spec: an Escrow Ledger entry from `state.rs`
(not in `src/`) — "value = `{outstanding: u128, total_sent: u128}`". -/
structure ChannelBalance where
  outstanding : Nat
  total_sent : Nat
deriving DecidableEq, Repr

/-- The persistent storage the contract reads and writes:
registered channel identities (`CHANNEL_INFO`), the allow-list of
validated cw20 addresses (`WHITE_LIST`), the configuration (`CONFIG`,
`none` when never saved so that a load fails), and the per-channel,
per-denomination escrow ledger (`CHANNEL_STATE`). -/
structure ContractState where
  channel_info : List String
  white_list : List String
  config : Option Config
  channel_state : List ((String × String) × ChannelBalance)
deriving DecidableEq, Repr

/-- Constant `u128::MAX`, the bound of checked 128-bit addition. -/
def U128_MAX : Nat := 2 ^ 128 - 1

/-- Current escrow-ledger entry for a `(channel, denom)` key,
defaulting to zero when absent ("created lazily (default zero)"). -/
def lookupBalance (l : List ((String × String) × ChannelBalance))
    (channel denom : String) : ChannelBalance :=
  match l.find? (fun e => e.1.1 == channel && e.1.2 == denom) with
  | some e => e.2
  | none => ⟨0, 0⟩

/-- Store an escrow-ledger entry, replacing any entry with the same
key. -/
def setBalance (l : List ((String × String) × ChannelBalance))
    (channel denom : String) (b : ChannelBalance) :
    List ((String × String) × ChannelBalance) :=
  ((channel, denom), b) ::
    l.filter (fun e => !(e.1.1 == channel && e.1.2 == denom))

/-- Modelled from the spec: `TransferMsg` from `msg.rs` (not in
`src/`) — "Transfer Request … `{channel, remote_address, timeout:
optional duration, …}`" (the amount and sender are passed
separately to `execute_transfer`). -/
structure TransferMsg where
  channel : String
  remote_address : String
  timeout : Option Nat
deriving DecidableEq, Repr

/-- Rust `cw0::PaymentError` variants used by `execute`. -/
inductive PaymentError where
  | NoFunds
  | MultipleDenoms
deriving DecidableEq, Repr

/-- Modelled from the spec: `ContractError` from `error.rs` (not in
`src/`), following the spec's error taxonomy and the variants named in `contract.rs`:
payment-normalization errors, the transfer-gate policy errors,
address-validation and config-load failures (`Std`), packet
well-formedness failure, ledger overflow, and notification-payload
decode failure. -/
inductive ContractError where
  | Payment (e : PaymentError)
  | NoFunds
  | NoSuchChannel (id : String)
  | NotOnAllowList
  | InvalidAddress
  | ConfigLoad
  | PacketInvalid
  | Overflow
  | Decode
deriving DecidableEq, Repr

/-- Modelled from the spec: `Ics20Packet` from `ibc.rs` (not in
`src/`) — "Outbound Packet Descriptor … `{sender, receiver, denom,
amount}`". -/
structure Ics20Packet where
  amount : Nat
  denom : String
  sender : String
  receiver : String
deriving DecidableEq, Repr

/-- Modelled from the spec: `Ics20Packet::new` from `ibc.rs` (not in
`src/`) — "build the packet descriptor from `amount.amount()`,
`amount.denom()`, the normalized sender, and the request's remote
address string". -/
def Ics20Packet.new (amount : Nat) (denom sender receiver : String) :
    Ics20Packet :=
  ⟨amount, denom, sender, receiver⟩

/-- Modelled from the spec: `Ics20Packet::validate` from `ibc.rs` (not
in `src/`) — "validate the packet descriptor's own well-formedness
(non-empty receiver, non-zero amount)". -/
def Ics20Packet.validate (p : Ics20Packet) : Except ContractError Unit :=
  if p.receiver.isEmpty then .error .PacketInvalid
  else if p.amount == 0 then .error .PacketInvalid
  else .ok ()

/-- An `IbcMsg::SendPacket` as built in `execute_transfer`; the binary
payload encoding is abstracted, the message carries the packet
itself. -/
structure IbcSendPacket where
  channel_id : String
  data : Ics20Packet
  timeout : Nat
deriving DecidableEq, Repr

/-- The observable part of a `Response`: outbound messages and
attributes. -/
structure Response where
  messages : List IbcSendPacket
  attributes : List (String × String)
deriving DecidableEq, Repr

/-- Struct `MessageInfo`: the caller address and the coins attached to the
request. -/
structure MessageInfo where
  sender : String
  funds : List Coin
deriving DecidableEq, Repr

/-- Rust `cw20::Cw20ReceiveMsg`: the notification wrapper sent by a cw20
token contract.  Its opaque `Binary` payload is modelled as the result
of decoding it into a `TransferMsg`, `none` standing for an
undecodable payload. -/
structure Cw20ReceiveMsg where
  sender : String
  amount : Nat
  msg : Option TransferMsg
deriving DecidableEq, Repr

/-- Modelled from the spec: `ExecuteMsg` from `msg.rs` (not in
`src/`) — the two execute
entry points dispatched in `contract.rs`. -/
inductive ExecuteMsg where
  | Receive : Cw20ReceiveMsg → ExecuteMsg
  | Transfer : TransferMsg → ExecuteMsg
deriving DecidableEq, Repr

/-- External collaborator `deps.api.addr_validate`: an external collaborator, modelled as a
function returning the validated address or `none` on failure. -/
def Api : Type := String → Option String

/-- Rust `Timestamp::plus_seconds` on a block time held in nanoseconds. -/
def plusSeconds (t delta : Nat) : Nat :=
  t + delta * 1000000000

/-- Storage read `CONFIG.load`: fails when no configuration was ever saved. -/
def load_config (st : ContractState) : Except ContractError Config :=
  match st.config with
  | some c => .ok c
  | none => .error .ConfigLoad

/-- Modelled from the spec: `increase_channel_balance` from `state.rs`
(not in `src/`) — "loads-or-defaults the entry, adds `amount` to both
`outstanding` and `total_sent` with checked (overflow-detecting)
128-bit addition, and persists the result". -/
def increase_channel_balance (st : ContractState)
    (channel denom : String) (amt : Nat) :
    Except ContractError ContractState :=
  let cur := lookupBalance st.channel_state channel denom
  if cur.outstanding + amt ≤ U128_MAX ∧ cur.total_sent + amt ≤ U128_MAX then
    .ok { st with
          channel_state := setBalance st.channel_state channel denom
            ⟨cur.outstanding + amt, cur.total_sent + amt⟩ }
  else
    .error .Overflow

/-- Timeout resolution in `execute_transfer` (`contract.rs` lines
113-117): the request's explicit timeout in seconds when present,
otherwise the stored configuration's `default_timeout`. -/
def resolve_timeout (st : ContractState) (msg : TransferMsg) :
    Except ContractError Nat :=
  match msg.timeout with
  | some t => .ok t
  | none => (load_config st).map (·.default_timeout)

/-- The tail of `execute_transfer` after the allow-list gate
(`contract.rs` lines 113-150): resolve the timeout, build and validate
the packet, increase the channel balance, then emit the send-packet
message with the transfer attributes.  Errors return the storage
unchanged. -/
def execute_transfer_tail (blockTime : Nat) (st : ContractState)
    (msg : TransferMsg) (amount : Amount) (sender : String) :
    ContractState × Except ContractError Response :=
  match resolve_timeout st msg with
  | .error e => (st, .error e)
  | .ok delta =>
    let timeout := plusSeconds blockTime delta
    let packet := Ics20Packet.new amount.amount amount.denom sender
      msg.remote_address
    match packet.validate with
    | .error e => (st, .error e)
    | .ok _ =>
      match increase_channel_balance st msg.channel amount.denom
          amount.amount with
      | .error e => (st, .error e)
      | .ok st1 =>
        (st1,
         .ok { messages := [⟨msg.channel, packet, timeout⟩],
               attributes :=
                 [("action", "transfer"),
                  ("sender", packet.sender),
                  ("receiver", packet.receiver),
                  ("denom", packet.denom),
                  ("amount", toString packet.amount)] })

/-- Function `execute_transfer` from `contract.rs` (lines 90-150): the empty
check, the channel-registration check and the allow-list gate,
followed by `execute_transfer_tail`.  The first component of the
result is the storage after the call; errors leave it unchanged. -/
def execute_transfer (api : Api) (blockTime : Nat) (st : ContractState)
    (msg : TransferMsg) (amount : Amount) (sender : String) :
    ContractState × Except ContractError Response :=
  if amount.is_empty then
    (st, .error .NoFunds)
  else if !(st.channel_info.contains msg.channel) then
    (st, .error (.NoSuchChannel msg.channel))
  else
    match amount with
    | .Cw20 coin =>
      match api coin.address with
      | none => (st, .error .InvalidAddress)
      | some addr =>
        if st.white_list.contains addr then
          execute_transfer_tail blockTime st msg amount sender
        else
          (st, .error .NotOnAllowList)
    | .Native _ => execute_transfer_tail blockTime st msg amount sender

/-- Function `execute_receive` from `contract.rs` (lines 76-89): decode the
wrapper's payload, build a `Cw20` amount from the notifying caller and
the wrapper's amount, validate the wrapper's sender, and delegate to
`execute_transfer`. -/
def execute_receive (api : Api) (blockTime : Nat) (st : ContractState)
    (info : MessageInfo) (wrapper : Cw20ReceiveMsg) :
    ContractState × Except ContractError Response :=
  match wrapper.msg with
  | none => (st, .error .Decode)
  | some msg =>
    let amount := Amount.Cw20 ⟨info.sender, wrapper.amount⟩
    match api wrapper.sender with
    | none => (st, .error .InvalidAddress)
    | some sender => execute_transfer api blockTime st msg amount sender

/-- Function `execute` from `contract.rs` (lines 49-74): dispatch on the
message; the direct `Transfer` arm normalizes the attached payment
(exactly one non-zero coin) before delegating to `execute_transfer`
with a `Native` amount. -/
def execute (api : Api) (blockTime : Nat) (st : ContractState)
    (info : MessageInfo) (msg : ExecuteMsg) :
    ContractState × Except ContractError Response :=
  match msg with
  | .Receive wrapper => execute_receive api blockTime st info wrapper
  | .Transfer msg =>
    match info.funds with
    | [] => (st, .error (.Payment .NoFunds))
    | [coin] =>
      if coin.amount == 0 then
        (st, .error (.Payment .NoFunds))
      else
        execute_transfer api blockTime st msg (.Native coin) info.sender
    | _ => (st, .error (.Payment .MultipleDenoms))

/-! ## Helper lemmas -/

theorem charsStartWith_self_append (p rest : List Char) :
    charsStartWith p (p ++ rest) = true := by
  induction p with
  | nil => rfl
  | cons c ps ih => simp [charsStartWith, ih]

theorem charsStartWith_shape (p : List Char) :
    ∀ cs, charsStartWith p cs = true → cs = p ++ cs.drop p.length := by
  induction p with
  | nil => intro cs _; simp
  | cons c ps ih =>
    intro cs h
    cases cs with
    | nil => simp [charsStartWith] at h
    | cons d ds =>
      simp only [charsStartWith, Bool.and_eq_true, beq_iff_eq] at h
      obtain ⟨rfl, h2⟩ := h
      simpa [List.length_cons] using ih ds h2

theorem strStartsWith_cw20_shape (s : String)
    (h : strStartsWith s "cw20:" = true) :
    s.data = 'c' :: 'w' :: '2' :: '0' :: ':' :: s.data.drop 5 := by
  have := charsStartWith_shape "cw20:".data s.data h
  simpa using this

theorem rustStrGet_cw20 (s : String)
    (h : strStartsWith s "cw20:" = true) :
    rustStrGet s.data 5 = some (s.data.drop 5) := by
  conv_lhs => rw [strStartsWith_cw20_shape s h]
  simp [rustStrGet, show 'c'.utf8Size = 1 from rfl,
    show 'w'.utf8Size = 1 from rfl, show '2'.utf8Size = 1 from rfl,
    show '0'.utf8Size = 1 from rfl, show ':'.utf8Size = 1 from rfl]

theorem strStartsWith_append (a : String) :
    strStartsWith ("cw20:" ++ a) "cw20:" = true := by
  simp only [strStartsWith, String.data_append]
  exact charsStartWith_self_append _ _

theorem from_parts_cw20_roundtrip (c : Cw20Coin) :
    Amount.from_parts ((Amount.Cw20 c).denom) ((Amount.Cw20 c).amount)
      = Amount.Cw20 c := by
  show Amount.from_parts ("cw20:" ++ c.address) c.amount = Amount.Cw20 c
  unfold Amount.from_parts
  rw [strStartsWith_append c.address]
  simp only [if_true]
  have : (⟨("cw20:" ++ c.address).data.drop 5⟩ : String) = c.address := by
    apply String.ext
    simp [String.data_append]
  rw [this]

theorem from_parts_native_roundtrip (c : Coin)
    (h : strStartsWith c.denom "cw20:" = false) :
    Amount.from_parts ((Amount.Native c).denom) ((Amount.Native c).amount)
      = Amount.Native c := by
  show Amount.from_parts c.denom c.amount = Amount.Native c
  unfold Amount.from_parts
  rw [if_neg (by simp [h])]

theorem from_parts_projections (d : String) (q : Nat) :
    (Amount.from_parts d q).denom = d ∧ (Amount.from_parts d q).amount = q := by
  unfold Amount.from_parts
  by_cases h : strStartsWith d "cw20:" = true
  · rw [if_pos h]
    refine ⟨?_, rfl⟩
    show "cw20:" ++ (⟨d.data.drop 5⟩ : String) = d
    apply String.ext
    rw [String.data_append]
    exact (strStartsWith_cw20_shape d h).symm
  · rw [if_neg h]
    exact ⟨rfl, rfl⟩

theorem from_parts_checked_eq (d : String) (q : Nat) :
    Amount.from_parts_checked d q = some (Amount.from_parts d q) := by
  unfold Amount.from_parts_checked Amount.from_parts
  by_cases h : strStartsWith d "cw20:" = true
  · rw [if_pos h, if_pos h, rustStrGet_cw20 d h]
    rfl
  · rw [if_neg h, if_neg h]

theorem execute_transfer_tail_error (t : Nat) (st : ContractState)
    (msg : TransferMsg) (a : Amount) (s : String) (st' : ContractState)
    (e : ContractError)
    (h : execute_transfer_tail t st msg a s = (st', .error e)) : st' = st := by
  unfold execute_transfer_tail at h
  rcases hr : resolve_timeout st msg with e0 | delta <;> rw [hr] at h <;>
    dsimp only at h
  · exact (congrArg Prod.fst h).symm
  · rcases hv : (Ics20Packet.new a.amount a.denom s
        msg.remote_address).validate with e0 | u <;>
      rw [hv] at h <;> dsimp only at h
    · exact (congrArg Prod.fst h).symm
    · rcases hi : increase_channel_balance st msg.channel a.denom a.amount
        with e0 | st1 <;> rw [hi] at h <;> dsimp only at h
      · exact (congrArg Prod.fst h).symm
      · exact absurd (congrArg Prod.snd h) (by simp)

theorem execute_transfer_tail_ok (t : Nat) (st : ContractState)
    (msg : TransferMsg) (a : Amount) (s : String) (st' : ContractState)
    (resp : Response)
    (h : execute_transfer_tail t st msg a s = (st', .ok resp)) :
    increase_channel_balance st msg.channel a.denom a.amount = .ok st' ∧
    ∃ delta, resolve_timeout st msg = .ok delta ∧
      resp.messages = [⟨msg.channel,
        Ics20Packet.new a.amount a.denom s msg.remote_address,
        plusSeconds t delta⟩] := by
  unfold execute_transfer_tail at h
  rcases hr : resolve_timeout st msg with e0 | delta <;> rw [hr] at h <;>
    dsimp only at h
  · exact absurd (congrArg Prod.snd h) (by simp)
  · rcases hv : (Ics20Packet.new a.amount a.denom s
        msg.remote_address).validate with e0 | u <;>
      rw [hv] at h <;> dsimp only at h
    · exact absurd (congrArg Prod.snd h) (by simp)
    · rcases hi : increase_channel_balance st msg.channel a.denom a.amount
        with e0 | st1 <;> rw [hi] at h <;> dsimp only at h
      · exact absurd (congrArg Prod.snd h) (by simp)
      · have h1 := congrArg Prod.fst h
        have h2 := congrArg Prod.snd h
        dsimp only at h1 h2
        obtain rfl : st1 = st' := h1
        have h3 : resp = _ := (Except.ok.injEq .. ).mp h2.symm
        refine ⟨rfl, delta, rfl, ?_⟩
        rw [h3]

theorem execute_transfer_error (api : Api) (t : Nat) (st : ContractState)
    (msg : TransferMsg) (a : Amount) (s : String) (st' : ContractState)
    (e : ContractError)
    (h : execute_transfer api t st msg a s = (st', .error e)) : st' = st := by
  unfold execute_transfer at h
  by_cases h1 : a.is_empty = true
  · rw [if_pos h1] at h
    exact (congrArg Prod.fst h).symm
  · rw [if_neg h1] at h
    by_cases h2 : (!(st.channel_info.contains msg.channel)) = true
    · rw [if_pos h2] at h
      exact (congrArg Prod.fst h).symm
    · rw [if_neg h2] at h
      cases a with
      | Native c => exact execute_transfer_tail_error _ _ _ _ _ _ _ h
      | Cw20 coin =>
        dsimp only at h
        cases hv : api coin.address with
        | none =>
          rw [hv] at h
          dsimp only at h
          exact (congrArg Prod.fst h).symm
        | some addr =>
          rw [hv] at h
          dsimp only at h
          by_cases hw : st.white_list.contains addr = true
          · rw [if_pos hw] at h
            exact execute_transfer_tail_error _ _ _ _ _ _ _ h
          · rw [if_neg hw] at h
            exact (congrArg Prod.fst h).symm

theorem execute_transfer_ok (api : Api) (t : Nat) (st : ContractState)
    (msg : TransferMsg) (a : Amount) (s : String) (st' : ContractState)
    (resp : Response)
    (h : execute_transfer api t st msg a s = (st', .ok resp)) :
    increase_channel_balance st msg.channel a.denom a.amount = .ok st' ∧
    ∃ delta, resolve_timeout st msg = .ok delta ∧
      resp.messages = [⟨msg.channel,
        Ics20Packet.new a.amount a.denom s msg.remote_address,
        plusSeconds t delta⟩] := by
  unfold execute_transfer at h
  by_cases h1 : a.is_empty = true
  · rw [if_pos h1] at h
    exact absurd (congrArg Prod.snd h) (by simp)
  · rw [if_neg h1] at h
    by_cases h2 : (!(st.channel_info.contains msg.channel)) = true
    · rw [if_pos h2] at h
      exact absurd (congrArg Prod.snd h) (by simp)
    · rw [if_neg h2] at h
      cases a with
      | Native c => exact execute_transfer_tail_ok _ _ _ _ _ _ _ h
      | Cw20 coin =>
        dsimp only at h
        cases hv : api coin.address with
        | none =>
          rw [hv] at h
          dsimp only at h
          exact absurd (congrArg Prod.snd h) (by simp)
        | some addr =>
          rw [hv] at h
          dsimp only at h
          by_cases hw : st.white_list.contains addr = true
          · rw [if_pos hw] at h
            exact execute_transfer_tail_ok _ _ _ _ _ _ _ h
          · rw [if_neg hw] at h
            exact absurd (congrArg Prod.snd h) (by simp)

theorem lookupBalance_setBalance
    (l : List ((String × String) × ChannelBalance)) (c d : String)
    (b : ChannelBalance) :
    lookupBalance (setBalance l c d b) c d = b := by
  simp [lookupBalance, setBalance, List.find?]

theorem increase_channel_balance_lookup (st : ContractState)
    (c d : String) (amt : Nat) (st' : ContractState)
    (h : increase_channel_balance st c d amt = .ok st') :
    lookupBalance st'.channel_state c d =
      ⟨(lookupBalance st.channel_state c d).outstanding + amt,
       (lookupBalance st.channel_state c d).total_sent + amt⟩ := by
  unfold increase_channel_balance at h
  by_cases hb : (lookupBalance st.channel_state c d).outstanding + amt
      ≤ U128_MAX ∧ (lookupBalance st.channel_state c d).total_sent + amt
      ≤ U128_MAX
  · rw [if_pos hb] at h
    obtain rfl : _ = st' := (Except.ok.injEq .. ).mp h
    exact lookupBalance_setBalance _ _ _ _
  · rw [if_neg hb] at h
    exact absurd h (by simp)

theorem execute_transfer_tail_white_list_indep (t : Nat)
    (st : ContractState) (wl : List String) (msg : TransferMsg)
    (a : Amount) (s : String) :
    (execute_transfer_tail t { st with white_list := wl } msg a s).1.channel_state
      = (execute_transfer_tail t st msg a s).1.channel_state ∧
    (execute_transfer_tail t { st with white_list := wl } msg a s).2
      = (execute_transfer_tail t st msg a s).2 := by
  unfold execute_transfer_tail
  have hrt : resolve_timeout { st with white_list := wl } msg
      = resolve_timeout st msg := rfl
  rw [hrt]
  cases resolve_timeout st msg with
  | error e => exact ⟨rfl, rfl⟩
  | ok delta =>
    dsimp only
    cases (Ics20Packet.new a.amount a.denom s msg.remote_address).validate with
    | error e => exact ⟨rfl, rfl⟩
    | ok u =>
      dsimp only
      unfold increase_channel_balance
      dsimp only
      by_cases hb : (lookupBalance st.channel_state msg.channel
            a.denom).outstanding + a.amount ≤ U128_MAX ∧
          (lookupBalance st.channel_state msg.channel a.denom).total_sent
            + a.amount ≤ U128_MAX
      · rw [if_pos hb, if_pos hb]
        exact ⟨rfl, rfl⟩
      · rw [if_neg hb, if_neg hb]
        exact ⟨rfl, rfl⟩

/-! ## Concrete fixtures used by the witnesses -/

/-- Address validator that accepts every address verbatim. -/
def apiId : Api := fun s => some s

/-- Example storage: channel `chan-0` registered, `ledgerA`
allow-listed, `default_timeout = 600`, empty escrow ledger. -/
def stEx : ContractState := ⟨["chan-0"], ["ledgerA"], some ⟨600⟩, []⟩

/-- Example transfer request on `chan-0` to `remote1` with no explicit
timeout. -/
def msgEx : TransferMsg := ⟨"chan-0", "remote1", none⟩

/-- Storage after escrowing 100 `uatom` on `chan-0` from `stEx`. -/
def stEx' : ContractState :=
  ⟨["chan-0"], ["ledgerA"], some ⟨600⟩,
   [(("chan-0", "uatom"), ⟨100, 100⟩)]⟩

/-- The response emitted for the 100 `uatom` transfer at block time 5. -/
def respEx : Response :=
  ⟨[⟨"chan-0", ⟨100, "uatom", "alice", "remote1"⟩, plusSeconds 5 600⟩],
   [("action", "transfer"), ("sender", "alice"), ("receiver", "remote1"),
    ("denom", "uatom"), ("amount", "100")]⟩

/-! ## Claim theorems -/

/-- C3 counterexample: the round-trip `from_parts (a.denom(), a.amount()) = a`
fails for a `Native` amount whose denomination string itself starts with
`"cw20:"` — `Native { denom = "cw20:x", amount = 1 }` reconstructs as
`Cw20 { address = "x", amount = 1 }`, a different variant. -/
theorem from_parts_roundtrip_fails_on_cw20_shaped_native_denom :
    Amount.from_parts ((Amount.Native ⟨"cw20:x", 1⟩).denom)
        ((Amount.Native ⟨"cw20:x", 1⟩).amount)
      ≠ Amount.Native ⟨"cw20:x", 1⟩ := by
  decide

/-- C3 (amended): `from_parts (a.denom(), a.amount())` reconstructs `a` in
variant and quantity, addresses preserved verbatim and case-sensitively,
for every `Cw20` amount, and for every `Native` amount whose denomination
string does not start with `"cw20:"`; a `Native` amount whose denomination
starts with `"cw20:"` is instead reconstructed as `Cw20`. -/
theorem from_parts_roundtrip_amended :
    (∀ c : Cw20Coin,
       Amount.from_parts ((Amount.Cw20 c).denom) ((Amount.Cw20 c).amount)
         = Amount.Cw20 c) ∧
    (∀ c : Coin, strStartsWith c.denom "cw20:" = false →
       Amount.from_parts ((Amount.Native c).denom) ((Amount.Native c).amount)
         = Amount.Native c) :=
  ⟨from_parts_cw20_roundtrip, from_parts_native_roundtrip⟩

/-- Witness for the amended C3 round-trip at concrete inputs. -/
theorem from_parts_roundtrip_amended_witness :
    Amount.from_parts ((Amount.Cw20 ⟨"TokenA", 5⟩).denom)
        ((Amount.Cw20 ⟨"TokenA", 5⟩).amount) = Amount.Cw20 ⟨"TokenA", 5⟩ ∧
    strStartsWith "uatom" "cw20:" = false ∧
    Amount.from_parts ((Amount.Native ⟨"uatom", 5⟩).denom)
        ((Amount.Native ⟨"uatom", 5⟩).amount) = Amount.Native ⟨"uatom", 5⟩ :=
  ⟨from_parts_roundtrip_amended.1 ⟨"TokenA", 5⟩, by decide,
   from_parts_roundtrip_amended.2 ⟨"uatom", 5⟩ (by decide)⟩

/-- C8: for every denomination string `d` and quantity `q`,
`from_parts(d, q).denom() == d` and `from_parts(d, q).amount() == q`,
covering both plain denominations and the `"cw20:<address>"` form. -/
theorem from_parts_denom_amount_projections (d : String) (q : Nat) :
    (Amount.from_parts d q).denom = d ∧ (Amount.from_parts d q).amount = q :=
  from_parts_projections d q

/-- C9: `from_parts` is total — the fallible byte slice `denom.get(5..)`,
modelled by `from_parts_checked`, always succeeds (the `unwrap` can never
panic, since the five ASCII bytes of `"cw20:"` put index 5 in range and on
a character boundary), and the input exactly `"cw20:"` yields a `Cw20`
amount with the empty address. -/
theorem from_parts_total_no_panic :
    (∀ (d : String) (q : Nat),
       Amount.from_parts_checked d q = some (Amount.from_parts d q)) ∧
    (∀ q : Nat, Amount.from_parts "cw20:" q = Amount.Cw20 ⟨"", q⟩) :=
  ⟨from_parts_checked_eq, fun _ => rfl⟩

/-- C1: every transfer request that fails any validation gate of
`execute_transfer` (empty amount, unregistered channel, invalid or
non-allow-listed cw20 address, configuration-load failure, packet
well-formedness failure, or ledger overflow) returns an error with the
storage — in particular the escrow ledger — unchanged, and with no
response, hence no outbound packet message, produced. -/
theorem transfer_rejection_is_side_effect_free (api : Api) (t : Nat)
    (st : ContractState) (msg : TransferMsg) (a : Amount) (s : String)
    (st' : ContractState) (e : ContractError)
    (h : execute_transfer api t st msg a s = (st', .error e)) :
    st' = st :=
  execute_transfer_error api t st msg a s st' e h

/-- Witness for C1: a request naming an unregistered channel is
rejected and the storage is returned unchanged. -/
theorem transfer_rejection_is_side_effect_free_witness :
    execute_transfer apiId 0 stEx ⟨"nochan", "r", some 1⟩
        (.Native ⟨"uatom", 5⟩) "alice"
      = (stEx, .error (.NoSuchChannel "nochan")) ∧ stEx = stEx :=
  ⟨by rfl,
   transfer_rejection_is_side_effect_free apiId 0 stEx
     ⟨"nochan", "r", some 1⟩ (.Native ⟨"uatom", 5⟩) "alice" stEx
     (.NoSuchChannel "nochan") (by rfl)⟩

/-- C2: on every successful return `execute_transfer` has both applied
`increase_channel_balance (channel, amount.denom(), amount.amount())`
to the storage (the returned state is exactly its result, the increase
being performed before the send-packet message is constructed — see
`execute_transfer_tail`) and put exactly one `IbcMsg::SendPacket` for
that channel, carrying the validated packet and the resolved absolute
deadline, into the response; no success path performs one of the two
without the other. -/
theorem transfer_success_couples_escrow_and_packet (api : Api) (t : Nat)
    (st : ContractState) (msg : TransferMsg) (a : Amount) (s : String)
    (st' : ContractState) (resp : Response)
    (h : execute_transfer api t st msg a s = (st', .ok resp)) :
    increase_channel_balance st msg.channel a.denom a.amount = .ok st' ∧
    ∃ delta, resolve_timeout st msg = .ok delta ∧
      resp.messages = [⟨msg.channel,
        Ics20Packet.new a.amount a.denom s msg.remote_address,
        plusSeconds t delta⟩] :=
  execute_transfer_ok api t st msg a s st' resp h

/-- Witness for C2: the spec's end-to-end example — 100 `uatom` on
`chan-0` escrows 100 and emits exactly one packet. -/
theorem transfer_success_couples_escrow_and_packet_witness :
    execute_transfer apiId 5 stEx msgEx (.Native ⟨"uatom", 100⟩) "alice"
      = (stEx', .ok respEx) ∧
    (increase_channel_balance stEx "chan-0" "uatom" 100 = .ok stEx' ∧
     ∃ delta, resolve_timeout stEx msgEx = .ok delta ∧
       respEx.messages = [⟨"chan-0",
         Ics20Packet.new 100 "uatom" "alice" "remote1",
         plusSeconds 5 delta⟩]) :=
  ⟨by rfl,
   transfer_success_couples_escrow_and_packet apiId 5 stEx msgEx
     (.Native ⟨"uatom", 100⟩) "alice" stEx' respEx (by rfl)⟩

/-- C4: with the earlier gates passed (non-empty `Cw20` amount,
registered channel, address validation succeeding), a cw20 token whose
validated address is absent from the allow-list is rejected with
`NotOnAllowList`; with the address present the allow-list gate is
passed (the call proceeds to `execute_transfer_tail`) and any success
escrows exactly the token amount; and a `Native` amount is never
subjected to the allow-list at all — the result (escrow ledger and
outcome) is independent of the stored allow-list. -/
theorem cw20_allow_list_gating (api : Api) (t : Nat) (st : ContractState)
    (msg : TransferMsg) (coin : Cw20Coin) (s : String) (addr : String)
    (he : (Amount.Cw20 coin).is_empty = false)
    (hc : st.channel_info.contains msg.channel = true)
    (hv : api coin.address = some addr) :
    (st.white_list.contains addr = false →
       execute_transfer api t st msg (.Cw20 coin) s
         = (st, .error .NotOnAllowList)) ∧
    (st.white_list.contains addr = true →
       execute_transfer api t st msg (.Cw20 coin) s
         = execute_transfer_tail t st msg (.Cw20 coin) s ∧
       ∀ st' resp, execute_transfer api t st msg (.Cw20 coin) s
           = (st', .ok resp) →
         lookupBalance st'.channel_state msg.channel
             ((Amount.Cw20 coin).denom)
           = ⟨(lookupBalance st.channel_state msg.channel
                 ((Amount.Cw20 coin).denom)).outstanding + coin.amount,
              (lookupBalance st.channel_state msg.channel
                 ((Amount.Cw20 coin).denom)).total_sent + coin.amount⟩) ∧
    (∀ (c : Coin) (wl : List String),
       (execute_transfer api t { st with white_list := wl } msg
           (.Native c) s).1.channel_state
         = (execute_transfer api t st msg (.Native c) s).1.channel_state ∧
       (execute_transfer api t { st with white_list := wl } msg
           (.Native c) s).2
         = (execute_transfer api t st msg (.Native c) s).2) := by
  refine ⟨?_, ?_, ?_⟩
  · intro hw
    unfold execute_transfer
    rw [if_neg (by simp [he]), if_neg (by rw [hc]; simp)]
    dsimp only
    rw [hv]
    dsimp only
    rw [if_neg (by rw [hw]; simp)]
  · intro hw
    constructor
    · unfold execute_transfer
      rw [if_neg (by simp [he]), if_neg (by rw [hc]; simp)]
      dsimp only
      rw [hv]
      dsimp only
      rw [if_pos hw]
    · intro st' resp h
      obtain ⟨hi, -⟩ := execute_transfer_ok _ _ _ _ _ _ _ _ h
      exact increase_channel_balance_lookup _ _ _ _ _ hi
  · intro c wl
    unfold execute_transfer
    dsimp only
    by_cases h1 : (Amount.Native c).is_empty = true
    · rw [if_pos h1, if_pos h1]
      exact ⟨rfl, rfl⟩
    · rw [if_neg h1, if_neg h1]
      by_cases h2 : (!(st.channel_info.contains msg.channel)) = true
      · rw [if_pos h2, if_pos h2]
        exact ⟨rfl, rfl⟩
      · rw [if_neg h2, if_neg h2]
        exact execute_transfer_tail_white_list_indep t st wl msg (.Native c) s

/-- Witness for C4: with `stEx` (allow-list `[ledgerA]`), a `ledgerB`
token is rejected with `NotOnAllowList` and a `ledgerA` token passes
the gate. -/
theorem cw20_allow_list_gating_witness :
    (stEx.white_list.contains "ledgerB" = false ∧
     execute_transfer apiId 5 stEx msgEx (.Cw20 ⟨"ledgerB", 3⟩) "alice"
       = (stEx, .error .NotOnAllowList)) ∧
    (stEx.white_list.contains "ledgerA" = true ∧
     execute_transfer apiId 5 stEx msgEx (.Cw20 ⟨"ledgerA", 3⟩) "alice"
       = execute_transfer_tail 5 stEx msgEx (.Cw20 ⟨"ledgerA", 3⟩) "alice") :=
  ⟨⟨by rfl,
    (cw20_allow_list_gating apiId 5 stEx msgEx ⟨"ledgerB", 3⟩ "alice"
      "ledgerB" (by rfl) (by rfl) (by rfl)).1 (by rfl)⟩,
   ⟨by rfl,
    ((cw20_allow_list_gating apiId 5 stEx msgEx ⟨"ledgerA", 3⟩ "alice"
      "ledgerA" (by rfl) (by rfl) (by rfl)).2.1 (by rfl)).1⟩⟩

/-- C5: for the direct `Transfer` entry point of `execute`, zero
attached coins are rejected, two coins of different denominations are
rejected, and exactly one attached coin of non-zero amount passes
payment normalization and is forwarded to `execute_transfer` as a
`Native` amount equal to that coin. -/
theorem direct_transfer_payment_normalization (api : Api) (t : Nat)
    (st : ContractState) (info : MessageInfo) (m : TransferMsg) :
    (info.funds = [] →
       execute api t st info (.Transfer m)
         = (st, .error (.Payment .NoFunds))) ∧
    (∀ c1 c2, info.funds = [c1, c2] → c1.denom ≠ c2.denom →
       execute api t st info (.Transfer m)
         = (st, .error (.Payment .MultipleDenoms))) ∧
    (∀ c, info.funds = [c] → c.amount ≠ 0 →
       execute api t st info (.Transfer m)
         = execute_transfer api t st m (.Native c) info.sender) := by
  refine ⟨?_, ?_, ?_⟩
  · intro hf
    unfold execute
    rw [hf]
  · intro c1 c2 hf _
    unfold execute
    rw [hf]
  · intro c hf hz
    unfold execute
    rw [hf]
    dsimp only
    rw [if_neg (by simp [hz])]

/-- Witness for C5 at concrete inputs: no funds rejected, mixed
denominations rejected, a single 100 `uatom` coin forwarded as a
`Native` amount. -/
theorem direct_transfer_payment_normalization_witness :
    execute apiId 5 stEx ⟨"alice", []⟩ (.Transfer msgEx)
      = (stEx, .error (.Payment .NoFunds)) ∧
    execute apiId 5 stEx ⟨"alice", [⟨"uatom", 1⟩, ⟨"uosmo", 1⟩]⟩
        (.Transfer msgEx)
      = (stEx, .error (.Payment .MultipleDenoms)) ∧
    execute apiId 5 stEx ⟨"alice", [⟨"uatom", 100⟩]⟩ (.Transfer msgEx)
      = execute_transfer apiId 5 stEx msgEx (.Native ⟨"uatom", 100⟩)
          "alice" :=
  ⟨(direct_transfer_payment_normalization apiId 5 stEx ⟨"alice", []⟩
      msgEx).1 rfl,
   (direct_transfer_payment_normalization apiId 5 stEx
      ⟨"alice", [⟨"uatom", 1⟩, ⟨"uosmo", 1⟩]⟩ msgEx).2.1
     ⟨"uatom", 1⟩ ⟨"uosmo", 1⟩ rfl (by decide),
   (direct_transfer_payment_normalization apiId 5 stEx
      ⟨"alice", [⟨"uatom", 100⟩]⟩ msgEx).2.2 ⟨"uatom", 100⟩ rfl
     (by decide)⟩

/-- C6: `execute_receive` always builds a `Cw20` amount whose address
is the notifying caller (`info.sender`) and whose quantity is the
wrapper's `amount` field — whatever the embedded payload claims — and
delegates to `execute_transfer` with the validated `wrapper.sender` as
the transfer's sender; the remaining inputs (undecodable payload,
invalid wrapper sender) are rejected, so no input yields a `Native`
amount. -/
theorem receive_always_ledgered (api : Api) (t : Nat)
    (st : ContractState) (info : MessageInfo) (w : Cw20ReceiveMsg) :
    (w.msg = none →
       execute_receive api t st info w = (st, .error .Decode)) ∧
    (∀ m, w.msg = some m → api w.sender = none →
       execute_receive api t st info w = (st, .error .InvalidAddress)) ∧
    (∀ m s, w.msg = some m → api w.sender = some s →
       execute_receive api t st info w
         = execute_transfer api t st m
             (Amount.Cw20 ⟨info.sender, w.amount⟩) s) := by
  refine ⟨?_, ?_, ?_⟩
  · intro hm
    unfold execute_receive
    rw [hm]
  · intro m hm hv
    unfold execute_receive
    rw [hm]
    dsimp only
    rw [hv]
  · intro m s hm hv
    unfold execute_receive
    rw [hm]
    dsimp only
    rw [hv]

/-- Witness for C6: a notification from `ledgerA` about 9 tokens
delegates with the `Cw20` amount `(ledgerA, 9)` taken from the
notification, not from the embedded payload. -/
theorem receive_always_ledgered_witness :
    execute_receive apiId 5 stEx ⟨"ledgerA", []⟩ ⟨"bob", 9, some msgEx⟩
      = execute_transfer apiId 5 stEx msgEx (Amount.Cw20 ⟨"ledgerA", 9⟩)
          "bob" :=
  (receive_always_ledgered apiId 5 stEx ⟨"ledgerA", []⟩
    ⟨"bob", 9, some msgEx⟩).2.2 msgEx "bob" rfl rfl

/-- C7: `execute_transfer` resolves the timeout delta as the request's
explicit timeout in seconds when present, otherwise as the stored
configuration's `default_timeout`, and the emitted packet's absolute
deadline is the current block time plus that many seconds. -/
theorem transfer_timeout_resolution (api : Api) (t : Nat)
    (st : ContractState) (msg : TransferMsg) (a : Amount) (s : String)
    (st' : ContractState) (resp : Response)
    (h : execute_transfer api t st msg a s = (st', .ok resp)) :
    (∀ d, msg.timeout = some d →
       resp.messages.map IbcSendPacket.timeout = [plusSeconds t d]) ∧
    (msg.timeout = none →
       ∃ cfg, st.config = some cfg ∧
         resp.messages.map IbcSendPacket.timeout
           = [plusSeconds t cfg.default_timeout]) := by
  obtain ⟨-, delta, hr, hm⟩ := execute_transfer_ok _ _ _ _ _ _ _ _ h
  constructor
  · intro d hd
    rw [hm]
    unfold resolve_timeout at hr
    rw [hd] at hr
    dsimp only at hr
    obtain rfl : d = delta := (Except.ok.injEq .. ).mp hr
    rfl
  · intro hn
    unfold resolve_timeout at hr
    rw [hn] at hr
    dsimp only at hr
    unfold load_config at hr
    cases hc : st.config with
    | none =>
      rw [hc] at hr
      exact absurd hr (by simp [Except.map])
    | some cfg =>
      rw [hc] at hr
      dsimp only [Except.map] at hr
      obtain rfl : cfg.default_timeout = delta := (Except.ok.injEq .. ).mp hr
      exact ⟨cfg, rfl, by rw [hm]; rfl⟩

/-- Witness for C7: with no explicit timeout the deadline is block
time 5 plus the configured 600 seconds. -/
theorem transfer_timeout_resolution_witness :
    execute_transfer apiId 5 stEx msgEx (.Native ⟨"uatom", 100⟩) "alice"
      = (stEx', .ok respEx) ∧
    (∃ cfg, stEx.config = some cfg ∧
       respEx.messages.map IbcSendPacket.timeout
         = [plusSeconds 5 cfg.default_timeout]) :=
  ⟨by rfl,
   (transfer_timeout_resolution apiId 5 stEx msgEx
     (.Native ⟨"uatom", 100⟩) "alice" stEx' respEx (by rfl)).2 rfl⟩

/-- C10: the direct `Transfer` entry point rejects every request whose
attached funds list has two or more coins with `MultipleDenoms`, based
solely on the count — the denominations are never compared — and only
a funds list of length exactly one can ever be accepted. -/
theorem multiple_coins_rejected_by_count (api : Api) (t : Nat)
    (st : ContractState) (info : MessageInfo) (m : TransferMsg) :
    (∀ c1 c2 rest, info.funds = c1 :: c2 :: rest →
       execute api t st info (.Transfer m)
         = (st, .error (.Payment .MultipleDenoms))) ∧
    (∀ st' resp, execute api t st info (.Transfer m) = (st', .ok resp) →
       info.funds.length = 1) := by
  constructor
  · intro c1 c2 rest hf
    unfold execute
    rw [hf]
  · intro st' resp h
    cases hf : info.funds with
    | nil =>
      unfold execute at h
      rw [hf] at h
      exact absurd (congrArg Prod.snd h) (by simp)
    | cons c tl =>
      cases tl with
      | nil => rfl
      | cons c2 tl2 =>
        unfold execute at h
        rw [hf] at h
        exact absurd (congrArg Prod.snd h) (by simp)

/-- Witness for C10: two coins of the SAME denomination are rejected
with `MultipleDenoms`, and the successful single-coin request has a
funds list of length one. -/
theorem multiple_coins_rejected_by_count_witness :
    execute apiId 5 stEx ⟨"alice", [⟨"uatom", 1⟩, ⟨"uatom", 2⟩]⟩
        (.Transfer msgEx)
      = (stEx, .error (.Payment .MultipleDenoms)) ∧
    (⟨"alice", [⟨"uatom", 100⟩]⟩ : MessageInfo).funds.length = 1 :=
  ⟨(multiple_coins_rejected_by_count apiId 5 stEx
      ⟨"alice", [⟨"uatom", 1⟩, ⟨"uatom", 2⟩]⟩ msgEx).1
     ⟨"uatom", 1⟩ ⟨"uatom", 2⟩ [] rfl,
   (multiple_coins_rejected_by_count apiId 5 stEx
      ⟨"alice", [⟨"uatom", 100⟩]⟩ msgEx).2 stEx'
     { messages := [⟨"chan-0", ⟨100, "uatom", "alice", "remote1"⟩,
         plusSeconds 5 600⟩],
       attributes := [("action", "transfer"), ("sender", "alice"),
         ("receiver", "remote1"), ("denom", "uatom"),
         ("amount", "100")] } (by rfl)⟩

end Portal
